import Mathlib

/-!
Shallow embedding of the GPUI test-harness context
(`src/crates/gpui/src/app/test_context.rs`) and proofs about its
test-authoring API: the predicate-based condition wait, the simulated
input injection, the notification/event stream bridges, and the one-shot
next-event helper.

The async control flow of the source is embedded as pure step functions
over explicit traces of scheduler events; Rust channels are embedded as
explicit queue states; a Rust panic is an `Except.error` / a distinguished
outcome constructor.
-/

namespace GpuiTest

/-! ## Condition waiter (`TestAppContext::condition`, lines 454-479)

The source races a loop against a 3-second timer:

  - the loop first evaluates the predicate (`model.update(self, &mut predicate)`);
    if true it returns `Ok(())`;
  - otherwise it awaits `notifications.next()`: `Some(())` means one change
    notification was observed and the loop re-polls, `None` means the
    notification stream closed because the entity was released, and the loop
    bails with the error string "model dropped";
  - the racing timer (`self.executor().timer(Duration::from_secs(3))`) maps
    its completion to the error string "condition timed out";
  - the final `.unwrap()` turns either error into a panic.

We embed one run as a fold over the trace of awaited occurrences the loop
observes, in order: `.notify` (the stream yielded an item), `.dropped` (the
stream yielded `None`), `.timeout` (the timer side of the race completed
first). The predicate is a function of the poll index: `pred k` is its value
at the k-th evaluation, i.e. against the entity state current at that poll,
matching the source where each poll re-reads the live state. -/

/-- One occurrence awaited by the condition loop, in trace order. -/
inductive CondStep
  | notify
  | dropped
  | timeout
  deriving DecidableEq, Repr

/-- How a `condition` call ends: a normal return after `k` notifications were
consumed, or one of the two distinct fatal panics produced by `.unwrap()`. -/
inductive CondOutcome
  | resolved (k : Nat)
  | panicDropped
  | panicTimedOut
  deriving DecidableEq, Repr

/-- The loop body of `TestAppContext::condition`: at poll index `k` evaluate
the predicate; on true return normally, otherwise consume the next trace
occurrence. `none` models a run whose trace ended without any terminal
occurrence (the loop would still be awaiting; in the source the raced timer
guarantees a terminal occurrence). -/
def conditionLoop (pred : Nat → Bool) : Nat → List CondStep → Option CondOutcome
  | k, steps =>
    if pred k then some (.resolved k)
    else
      match steps with
      | [] => none
      | .notify :: rest => conditionLoop pred (k + 1) rest
      | .dropped :: _ => some .panicDropped
      | .timeout :: _ => some .panicTimedOut

/-- A full `condition` call starts polling at index 0 (the predicate is
evaluated once immediately, before any notification). -/
def conditionRun (pred : Nat → Bool) (steps : List CondStep) : Option CondOutcome :=
  conditionLoop pred 0 steps

/-- The list of poll indices at which `conditionLoop` evaluates the predicate:
the current index always, then one further index per notification consumed
while the predicate stays false. -/
def conditionChecksAux (pred : Nat → Bool) : Nat → List CondStep → List Nat
  | k, steps =>
    if pred k then [k]
    else
      match steps with
      | [] => [k]
      | .notify :: rest => k :: conditionChecksAux pred (k + 1) rest
      | .dropped :: _ => [k]
      | .timeout :: _ => [k]

/-- Poll indices evaluated by a full `condition` call. -/
def conditionChecks (pred : Nat → Bool) (steps : List CondStep) : List Nat :=
  conditionChecksAux pred 0 steps

/-- A trace occurrence that terminates the wait when the predicate never
turns true: the stream closing or the timer firing. -/
def CondStep.isTerminal : CondStep → Bool
  | .notify => false
  | .dropped => true
  | .timeout => true

/-- Timeout budget of `TestAppContext::condition` as a function of whether the
continuous-integration environment variable is set: line 459 hard-codes
`Duration::from_secs(3)` and consults no environment variable, so the value
is constant in seconds. -/
def conditionTimeoutSecs (_ciEnvSet : Bool) : Nat := 3

/-- Timeout budget in seconds of `Model::next_notification` (lines 522-526):
5 seconds when the `CI` environment variable is set, 1 second otherwise. -/
def nextNotificationTimeoutSecs (ciEnvSet : Bool) : Nat :=
  if ciEnvSet then 5 else 1

/-! ## Event injector (`simulate_keystrokes` 369-379, `simulate_input` 385-391,
`VisualTestContext::simulate_click` 746-760, `simulate_event` 805-809)

`Keystroke` and `Keystroke::parse` live in the gpui crate outside this
excerpt, so the parser is taken as an explicit parameter
`parse : String → Option Keystroke` (`none` embeds `Err`, on which the
source's `Result::unwrap` panics); the token carried by a parsed keystroke is
kept verbatim. Observable behaviour is the trace of primitive dispatches and
scheduler drains; a panic mid-sequence is `Except.error` carrying the
dispatches already performed (Rust iterators are lazy, so tokens before the
failing one are dispatched before `unwrap` panics). -/

/-- Result of `Keystroke::parse` on one token, keeping the token. -/
structure Keystroke where
  token : String
  deriving DecidableEq, Repr

/-- Modifier keys of an input event (gpui `Modifiers`). -/
structure Modifiers where
  control : Bool := false
  alt : Bool := false
  shift : Bool := false
  platform : Bool := false
  function : Bool := false
  deriving DecidableEq, Repr

/-- Mouse button of a simulated mouse event (gpui `MouseButton`). -/
inductive MouseButton
  | left
  | right
  | middle
  deriving DecidableEq, Repr

/-- Position of a simulated mouse event (`Point<Pixels>`); the claims under
study never compute with coordinates, so pixels are embedded as integers. -/
structure Position where
  x : Int
  y : Int
  deriving DecidableEq, Repr

/-- Fields of the `MouseDownEvent` literal built by `simulate_click`. -/
structure MouseDownEvent where
  position : Position
  modifiers : Modifiers
  button : MouseButton
  clickCount : Nat
  firstMouse : Bool
  deriving DecidableEq, Repr

/-- Fields of the `MouseUpEvent` literal built by `simulate_click`. -/
structure MouseUpEvent where
  position : Position
  modifiers : Modifiers
  button : MouseButton
  clickCount : Nat
  deriving DecidableEq, Repr

/-- One observable step performed by the test-context input API: a primitive
event handed to the window's input path, or one `run_until_parked` drain of
the background executor. -/
inductive SimAction
  | keyDispatch (k : Keystroke)
  | mouseDownDispatch (e : MouseDownEvent)
  | mouseUpDispatch (e : MouseUpEvent)
  | drain
  deriving DecidableEq, Repr

/-- Equality of `Except` values is decidable componentwise; used to evaluate
the injector's results on concrete inputs. -/
instance {ε α : Type} [DecidableEq ε] [DecidableEq α] : DecidableEq (Except ε α) := fun x y =>
  match x, y with
  | .error a, .error b =>
    if h : a = b then isTrue (by rw [h]) else isFalse (by intro hc; cases hc; exact h rfl)
  | .error _, .ok _ => isFalse (by intro hc; cases hc)
  | .ok _, .error _ => isFalse (by intro hc; cases hc)
  | .ok a, .ok b =>
    if h : a = b then isTrue (by rw [h]) else isFalse (by intro hc; cases hc; exact h rfl)

/-- Rust `str::split(' ')` over the character list: each space separates two
pieces, consecutive spaces produce empty pieces, and the whole string is one
piece when no space occurs in it. -/
def splitCharList : List Char → List (List Char)
  | [] => [[]]
  | c :: cs =>
    if c = ' ' then [] :: splitCharList cs
    else
      match splitCharList cs with
      | [] => [[c]]
      | p :: ps => (c :: p) :: ps

/-- The token list `keystrokes.split(' ')` iterated by `simulate_keystrokes`. -/
def rustSplitSpace (s : String) : List String :=
  (splitCharList s.toList).map fun l => String.mk l

/-- The `for` loop shared by `simulate_keystrokes` and `simulate_input`: pull
tokens left to right through `parse` and `unwrap`, dispatching each parsed
keystroke; on the first failing token, panic with the dispatches performed so
far (`Except.error`). -/
def dispatchTokenLoop (parse : String → Option Keystroke) :
    List String → List SimAction → Except (List SimAction) (List SimAction)
  | [], acc => .ok acc
  | t :: ts, acc =>
    match parse t with
    | some k => dispatchTokenLoop parse ts (acc ++ [.keyDispatch k])
    | none => .error acc

/-- Embedding of `TestAppContext::simulate_keystrokes` (lines 369-379): split
the input on single spaces (Rust `str::split(' ')`), dispatch each parsed
token in order, then run the background executor until parked once after the
whole sequence. -/
def simulate_keystrokes (parse : String → Option Keystroke) (keystrokes : String) :
    Except (List SimAction) (List SimAction) :=
  match dispatchTokenLoop parse (rustSplitSpace keystrokes) [] with
  | .ok acc => .ok (acc ++ [.drain])
  | .error acc => .error acc

/-- Rust `str::split` with the empty-string pattern, as used by
`simulate_input`: the empty pattern matches at every character boundary
including the start and the end of the string, so the pieces are an empty
string, then each character as a one-character string, then an empty string. -/
def rustSplitEmptyPattern (s : String) : List String :=
  "" :: (s.toList.map String.singleton ++ [""])

/-- Embedding of `TestAppContext::simulate_input` (lines 385-391): split the
input with the empty-string pattern, dispatch each parsed piece in order,
then drain the executor once after the whole sequence. -/
def simulate_input (parse : String → Option Keystroke) (input : String) :
    Except (List SimAction) (List SimAction) :=
  match dispatchTokenLoop parse (rustSplitEmptyPattern input) [] with
  | .ok acc => .ok (acc ++ [.drain])
  | .error acc => .error acc

/-- Embedding of `VisualTestContext::simulate_event` (lines 805-809) for a
mouse-down primitive: feed the event to the test window's input path, then
`run_until_parked`. -/
def simulate_event_mouse_down (e : MouseDownEvent) : List SimAction :=
  [.mouseDownDispatch e, .drain]

/-- Embedding of `VisualTestContext::simulate_event` (lines 805-809) for a
mouse-up primitive: feed the event to the test window's input path, then
`run_until_parked`. -/
def simulate_event_mouse_up (e : MouseUpEvent) : List SimAction :=
  [.mouseUpDispatch e, .drain]

/-- Embedding of `VisualTestContext::simulate_click` (lines 746-760): a
`simulate_event` of a left-button mouse-down with click count 1, followed by
a `simulate_event` of the matching mouse-up. -/
def simulate_click (position : Position) (modifiers : Modifiers) : List SimAction :=
  simulate_event_mouse_down
    { position := position, modifiers := modifiers, button := .left
      clickCount := 1, firstMouse := false } ++
  simulate_event_mouse_up
    { position := position, modifiers := modifiers, button := .left
      clickCount := 1 }

/-- Counts the scheduler drains in an action trace. -/
def drainCount (actions : List SimAction) : Nat :=
  actions.countP fun a => a = .drain

/-- Counts the primitive dispatches (non-drain actions) in an action trace. -/
def dispatchCount (actions : List SimAction) : Nat :=
  actions.countP fun a => a ≠ .drain

/-! ## Notification and event bridges (`notifications` 417-431, `events` 434-450)

Both bridges are built on `futures::channel::mpsc::unbounded`: sending
appends to an unbounded buffer and succeeds whenever the channel is open
(`unbounded_send` returns `Err` only on a closed channel, and both call
sites discard that result with a throwaway binding); `close_channel` closes
the sender side; the receiver yields buffered items in FIFO order and, once
the buffer is empty, reports closure when the channel is closed or stays
pending when it is open. -/

/-- State of one `futures::channel::mpsc::unbounded` channel. -/
structure UnboundedChannel (α : Type) where
  buffer : List α
  senderClosed : Bool
  deriving DecidableEq, Repr

/-- The freshly created channel of `futures::channel::mpsc::unbounded()`. -/
def emptyChannel {α : Type} : UnboundedChannel α :=
  { buffer := [], senderClosed := false }

/-- Effect of `tx.unbounded_send(a)` with the result discarded: append to the
buffer while the channel is open, do nothing once it is closed. -/
def unboundedSend {α : Type} (ch : UnboundedChannel α) (a : α) : UnboundedChannel α :=
  if ch.senderClosed then ch else { ch with buffer := ch.buffer ++ [a] }

/-- Whether `tx.unbounded_send(a)` would succeed on this channel state. -/
def sendSucceeds {α : Type} (ch : UnboundedChannel α) : Bool :=
  !ch.senderClosed

/-- Effect of `tx.close_channel()`. -/
def closeChannel {α : Type} (ch : UnboundedChannel α) : UnboundedChannel α :=
  { ch with senderClosed := true }

/-- What one poll of the receiving stream observes. -/
inductive StreamPoll (α : Type)
  | item (a : α)
  | closed
  | pending
  deriving DecidableEq, Repr

/-- One poll of the receiver: the oldest buffered item if any, otherwise
closure when the sender side is closed, otherwise pending. -/
def recvPoll {α : Type} : UnboundedChannel α → StreamPoll α × UnboundedChannel α
  | { buffer := a :: rest, senderClosed := c } =>
    (.item a, { buffer := rest, senderClosed := c })
  | { buffer := [], senderClosed := true } =>
    (.closed, { buffer := [], senderClosed := true })
  | { buffer := [], senderClosed := false } =>
    (.pending, { buffer := [], senderClosed := false })

/-- The sequence observed by polling the receiver `n` times. -/
def observeSeq {α : Type} (ch : UnboundedChannel α) : Nat → List (StreamPoll α)
  | 0 => []
  | n + 1 =>
    let (p, ch2) := recvPoll ch
    p :: observeSeq ch2 n

/-- One occurrence on the observed entity, as seen by the two subscriptions
installed by `TestAppContext::notifications`: a change notification
(`cx.observe` fires and the callback does `tx.unbounded_send(())`) or the
entity's release (`cx.observe_release` fires and the callback does
`tx.close_channel()`). -/
inductive EntityEvent
  | notified
  | released
  deriving DecidableEq, Repr

/-- Effect of one entity occurrence on the notifications channel: the
`cx.observe` callback sends one unit item per change notification, the
`cx.observe_release` callback closes the channel on release. -/
def notificationsStep (ch : UnboundedChannel Unit) (e : EntityEvent) : UnboundedChannel Unit :=
  match e with
  | .notified => unboundedSend ch ()
  | .released => closeChannel ch

/-- Channel state produced by `TestAppContext::notifications` (lines 417-431)
after the given sequence of entity occurrences. -/
def notificationsChannel (events : List EntityEvent) : UnboundedChannel Unit :=
  events.foldl notificationsStep emptyChannel

/-- Number of change notifications in a list of entity occurrences. -/
def notifiedCount (events : List EntityEvent) : Nat :=
  events.countP fun e => e = .notified

/-- Interleaved history of an `events` bridge run: the entity emitting an
event of the subscribed kind (the `cx.subscribe` callback clones it and
sends it), or the test consumer polling the receiver once. -/
inductive BridgeOp (α : Type)
  | emit (e : α)
  | poll

/-- State of an `events` bridge run: the channel plus the list of values the
consumer has received so far. -/
structure BridgeState (α : Type) where
  chan : UnboundedChannel α
  received : List α

/-- One step of an `events` bridge run (`TestAppContext::events`, lines
434-450): an emission sends the cloned value into the unbounded channel; a
consumer poll takes the oldest buffered item if one is available. -/
def bridgeStep {α : Type} (s : BridgeState α) : BridgeOp α → BridgeState α
  | .emit e => { s with chan := unboundedSend s.chan e }
  | .poll =>
    match recvPoll s.chan with
    | (.item a, ch2) => { chan := ch2, received := s.received ++ [a] }
    | _ => s

/-- A full `events` bridge run from the freshly subscribed state. -/
def bridgeRun {α : Type} (ops : List (BridgeOp α)) : BridgeState α :=
  ops.foldl bridgeStep { chan := emptyChannel, received := [] }

/-- The values emitted during a bridge history, in emission order. -/
def emitsOf {α : Type} (ops : List (BridgeOp α)) : List α :=
  ops.filterMap fun op =>
    match op with
    | .emit e => some e
    | .poll => none

/-! ## One-shot next event (`Model::next_event`, lines 490-510)

The source subscribes to the model with a callback holding
`let mut tx = Some(tx)` over a `oneshot` channel: on each emitted event it
runs `tx.take()` and, the first time only, sends the cloned event; the
returned future does `rx.await.expect("no event emitted")`, which panics
when the sender is dropped (the subscription, and with it the callback and
the unsent `tx`, is destroyed) before anything was sent. -/

/-- One occurrence relevant to a pending `next_event` future: the model
emitting an event of the subscribed kind, or the subscription being dropped
(e.g. the model released) with the callback destroyed. -/
inductive SubEvent (α : Type)
  | emit (e : α)
  | dropSub

/-- State of the one-shot sender captured by the `next_event` callback. -/
structure OneshotState (α : Type) where
  txPresent : Bool
  sent : Option α
  senderDropped : Bool

/-- One step of the `next_event` machinery: an emission fires the callback
(unless the subscription was dropped), which consumes `tx` via `take()` on
first use and sends the event; dropping the subscription destroys the
callback and any sender it still holds. -/
def nextEventStep {α : Type} (s : OneshotState α) : SubEvent α → OneshotState α
  | .emit v =>
    if s.senderDropped then s
    else if s.txPresent then { txPresent := false, sent := some v, senderDropped := s.senderDropped }
    else s
  | .dropSub => { s with senderDropped := true }

/-- How the future returned by `next_event` ends. -/
inductive NextEventOutcome (α : Type)
  | resolved (e : α)
  | panicNoEvent
  | pending

/-- Outcome of `rx.await.expect("no event emitted")` after the given sequence
of occurrences: the sent value if one was sent, the "no event emitted" panic
if the sender was destroyed unsent, and still pending otherwise. -/
def nextEventOutcome {α : Type} (events : List (SubEvent α)) : NextEventOutcome α :=
  let s := events.foldl nextEventStep
    { txPresent := true, sent := none, senderDropped := false }
  match s.sent with
  | some v => .resolved v
  | none => if s.senderDropped then .panicNoEvent else .pending

/-! ## Sample instantiations

`Keystroke::parse` is outside this excerpt, so theorems about the input
simulators are parametric in the parser; these two concrete parsers
instantiate them on concrete inputs. -/

/-- Sample parser that accepts every non-empty token verbatim and rejects
the empty token. -/
def sampleKeystrokeParse : String → Option Keystroke :=
  fun s => if s.isEmpty then none else some ⟨s⟩

/-- Sample parser that accepts every token verbatim. -/
def sampleParseTotal : String → Option Keystroke :=
  fun s => some ⟨s⟩

/-! # Theorems -/

/-! ## Condition waiter lemmas -/

/-- A trace containing a terminal occurrence makes the condition loop
produce an outcome, wherever the poll index currently stands. -/
theorem conditionLoop_isSome_of_terminal (pred : Nat → Bool) :
    ∀ (steps : List CondStep) (k : Nat), steps.any CondStep.isTerminal = true →
      (conditionLoop pred k steps).isSome = true := by
  intro steps
  induction steps with
  | nil => intro k h; simp at h
  | cons s rest ih =>
    intro k h
    rw [conditionLoop.eq_def]
    by_cases hp : pred k
    · simp [hp]
    · simp only [hp, if_false]
      cases s with
      | notify =>
        have hrest : rest.any CondStep.isTerminal = true := by
          simpa [CondStep.isTerminal] using h
        exact ih (k + 1) hrest
      | dropped => simp
      | timeout => simp

/-- While the predicate stays false, a trace of notifications ending in the
stream closing makes the loop bail with the dropped panic. -/
theorem conditionLoop_dropped (pred : Nat → Bool) :
    ∀ (n k0 : Nat) (rest : List CondStep), (∀ j, j ≤ n → pred (k0 + j) = false) →
      conditionLoop pred k0 (List.replicate n .notify ++ .dropped :: rest) =
        some .panicDropped := by
  intro n
  induction n with
  | zero =>
    intro k0 rest h
    have h0 : pred k0 = false := by simpa using h 0 (Nat.le_refl 0)
    rw [conditionLoop.eq_def]
    simp [h0]
  | succ m ih =>
    intro k0 rest h
    have h0 : pred k0 = false := by simpa using h 0 (Nat.zero_le _)
    rw [List.replicate_succ, List.cons_append, conditionLoop]
    simp only [h0, Bool.false_eq_true, if_false]
    exact ih (k0 + 1) rest fun j hj => by
      have := h (j + 1) (Nat.succ_le_succ hj)
      simpa [Nat.add_assoc, Nat.add_comm 1 j] using this

/-- While the predicate stays false, a trace of notifications ending in the
timer winning the race makes the call panic with the timeout message. -/
theorem conditionLoop_timedOut (pred : Nat → Bool) :
    ∀ (n k0 : Nat) (rest : List CondStep), (∀ j, j ≤ n → pred (k0 + j) = false) →
      conditionLoop pred k0 (List.replicate n .notify ++ .timeout :: rest) =
        some .panicTimedOut := by
  intro n
  induction n with
  | zero =>
    intro k0 rest h
    have h0 : pred k0 = false := by simpa using h 0 (Nat.le_refl 0)
    rw [conditionLoop.eq_def]
    simp [h0]
  | succ m ih =>
    intro k0 rest h
    have h0 : pred k0 = false := by simpa using h 0 (Nat.zero_le _)
    rw [List.replicate_succ, List.cons_append, conditionLoop]
    simp only [h0, Bool.false_eq_true, if_false]
    exact ih (k0 + 1) rest fun j hj => by
      have := h (j + 1) (Nat.succ_le_succ hj)
      simpa [Nat.add_assoc, Nat.add_comm 1 j] using this

/-- If the predicate first turns true at offset `j` and at least `j`
notifications arrive before the trace's terminal occurrence, the loop
returns normally at poll index `k0 + j`. -/
theorem conditionLoop_resolves (pred : Nat → Bool) :
    ∀ (j m k0 : Nat) (rest : List CondStep), j ≤ m → pred (k0 + j) = true →
      (∀ i, i < j → pred (k0 + i) = false) →
      conditionLoop pred k0 (List.replicate m .notify ++ rest) =
        some (.resolved (k0 + j)) := by
  intro j
  induction j with
  | zero =>
    intro m k0 rest _ ht _
    rw [conditionLoop.eq_def]
    simp at ht
    simp [ht]
  | succ i ih =>
    intro m k0 rest hm ht hf
    have h0 : pred k0 = false := by simpa using hf 0 (Nat.succ_pos i)
    cases m with
    | zero => exact absurd hm (by omega)
    | succ m2 =>
      rw [List.replicate_succ, List.cons_append, conditionLoop.eq_def]
      simp only [h0, Bool.false_eq_true, if_false]
      have hres := ih m2 (k0 + 1) rest (Nat.le_of_succ_le_succ hm)
        (by simpa [Nat.add_assoc, Nat.add_comm 1 i] using ht)
        (fun i2 hi2 => by
          have := hf (i2 + 1) (Nat.succ_lt_succ hi2)
          simpa [Nat.add_assoc, Nat.add_comm 1 i2] using this)
      rw [hres]
      have : k0 + 1 + i = k0 + (i + 1) := by omega
      rw [this]

/-- Under the same hypotheses, the polls performed are exactly the indices
`k0, k0 + 1, ..., k0 + j`: one immediate poll and then one per notification,
none skipped and none repeated. -/
theorem conditionChecksAux_resolves (pred : Nat → Bool) :
    ∀ (j m k0 : Nat) (rest : List CondStep), j ≤ m → pred (k0 + j) = true →
      (∀ i, i < j → pred (k0 + i) = false) →
      conditionChecksAux pred k0 (List.replicate m .notify ++ rest) =
        (List.range (j + 1)).map (k0 + ·) := by
  intro j
  induction j with
  | zero =>
    intro m k0 rest _ ht _
    rw [conditionChecksAux.eq_def]
    simp at ht
    simp [ht, List.range_succ]
  | succ i ih =>
    intro m k0 rest hm ht hf
    have h0 : pred k0 = false := by simpa using hf 0 (Nat.succ_pos i)
    cases m with
    | zero => exact absurd hm (by omega)
    | succ m2 =>
      rw [List.replicate_succ, List.cons_append, conditionChecksAux.eq_def]
      simp only [h0, Bool.false_eq_true, if_false]
      have hres := ih m2 (k0 + 1) rest (Nat.le_of_succ_le_succ hm)
        (by simpa [Nat.add_assoc, Nat.add_comm 1 i] using ht)
        (fun i2 hi2 => by
          have := hf (i2 + 1) (Nat.succ_lt_succ hi2)
          simpa [Nat.add_assoc, Nat.add_comm 1 i2] using this)
      rw [hres]
      have hr : List.range (i + 1 + 1) = 0 :: (List.range (i + 1)).map (· + 1) := by
        rw [List.range_succ_eq_map]
      rw [hr]
      simp only [List.map_cons, List.map_map, Nat.add_zero]
      congr 1
      apply List.map_congr_left
      intro a _
      simp only [Function.comp_apply]
      omega

/-! ## Claim theorems for the condition waiter -/

/-- C1: a `TestAppContext::condition` call whose trace contains a terminal
occurrence (the raced 3-second timer guarantees one in the source) always
produces an outcome, i.e. the wait never hangs; the outcome type makes the
three terminations (normal return, timeout panic, dropped panic) mutually
exclusive; and when the entity is dropped while the predicate was still
false at every poll, the outcome is exactly the dropped panic — never the
timeout panic, which arises only from the timer side of the race. -/
theorem condition_three_exclusive_outcomes (pred : Nat → Bool)
    (steps rest : List CondStep) (n : Nat)
    (hterm : steps.any CondStep.isTerminal = true)
    (hfalse : ∀ j, j ≤ n → pred j = false) :
    (conditionRun pred steps).isSome = true ∧
    conditionRun pred (List.replicate n .notify ++ .dropped :: rest) =
      some .panicDropped ∧
    conditionRun pred (List.replicate n .notify ++ .timeout :: rest) =
      some .panicTimedOut ∧
    (CondOutcome.panicDropped ≠ CondOutcome.panicTimedOut ∧
      ∀ k, CondOutcome.resolved k ≠ CondOutcome.panicDropped ∧
        CondOutcome.resolved k ≠ CondOutcome.panicTimedOut) := by
  refine ⟨conditionLoop_isSome_of_terminal pred steps 0 hterm, ?_, ?_, ?_⟩
  · exact conditionLoop_dropped pred n 0 rest (by simpa using hfalse)
  · exact conditionLoop_timedOut pred n 0 rest (by simpa using hfalse)
  · exact ⟨by simp, fun k => ⟨by simp, by simp⟩⟩

/-- Witness for C1 at a concrete run: predicate never true, two
notifications and then the entity dropped. -/
theorem condition_three_exclusive_outcomes_witness :
    ([CondStep.notify, CondStep.dropped].any CondStep.isTerminal = true) ∧
    (conditionRun (fun _ => false) [CondStep.notify, CondStep.dropped]).isSome = true ∧
    conditionRun (fun _ => false)
      (List.replicate 2 CondStep.notify ++ CondStep.dropped :: []) =
      some CondOutcome.panicDropped :=
  ⟨by decide,
    (condition_three_exclusive_outcomes (fun _ => false)
      [CondStep.notify, CondStep.dropped] [] 2 (by decide) (fun _ _ => rfl)).1,
    (condition_three_exclusive_outcomes (fun _ => false)
      [CondStep.notify, CondStep.dropped] [] 2 (by decide) (fun _ _ => rfl)).2.1⟩

/-- C2: the predicate of `condition` is evaluated once immediately (poll
index 0) and then exactly once after each individual notification, with no
notification coalesced or skipped: if the predicate first turns true at poll
index `k` and at least `k` notifications precede the trace's terminal
occurrence, the wait returns normally exactly at the poll following the
k-th notification, and the polls performed are exactly `0, 1, ..., k`. -/
theorem condition_polls_once_per_notification (pred : Nat → Bool)
    (n k : Nat) (rest : List CondStep)
    (hk : k ≤ n) (ht : pred k = true) (hf : ∀ j, j < k → pred j = false) :
    conditionRun pred (List.replicate n .notify ++ rest) =
      some (.resolved k) ∧
    conditionChecks pred (List.replicate n .notify ++ rest) = List.range (k + 1) := by
  constructor
  · have := conditionLoop_resolves pred k n 0 rest hk (by simpa using ht)
      (fun i hi => by simpa using hf i hi)
    simpa [conditionRun] using this
  · have := conditionChecksAux_resolves pred k n 0 rest hk (by simpa using ht)
      (fun i hi => by simpa using hf i hi)
    rw [conditionChecks, this]
    simp

/-- Witness for C2: a predicate true only from the third notification on
resolves exactly at poll 3 after polls 0, 1, 2, 3. -/
theorem condition_polls_once_per_notification_witness :
    ((3 : Nat) ≤ 3 ∧ decide (3 ≤ 3) = true) ∧
    conditionRun (fun j => decide (3 ≤ j))
      (List.replicate 3 CondStep.notify ++ [CondStep.timeout]) =
      some (CondOutcome.resolved 3) ∧
    conditionChecks (fun j => decide (3 ≤ j))
      (List.replicate 3 CondStep.notify ++ [CondStep.timeout]) = List.range 4 :=
  ⟨⟨by decide, by decide⟩,
    (condition_polls_once_per_notification (fun j => decide (3 ≤ j)) 3 3
      [CondStep.timeout] (by decide) (by decide)
      (fun j hj => decide_eq_false (by omega))).1,
    (condition_polls_once_per_notification (fun j => decide (3 ≤ j)) 3 3
      [CondStep.timeout] (by decide) (by decide)
      (fun j hj => decide_eq_false (by omega))).2⟩

/-! ## Claim theorems for the timeout policy -/

/-- C7 counterexample: the timeout budget of the predicate-based condition
wait is the same whether or not the continuous-integration environment
variable is set — in particular the budget with the variable set is not
longer than without it, refuting the claim that the condition wait's
timeout depends on that variable. -/
theorem condition_timeout_ignores_ci :
    conditionTimeoutSecs true = conditionTimeoutSecs false ∧
    ¬ conditionTimeoutSecs false < conditionTimeoutSecs true := by
  decide

/-- C7 amended: the predicate-based condition wait uses a fixed 3-second
timeout for every setting of the continuous-integration environment
variable; the variable instead selects the timeout of
`Model::next_notification`, 5 seconds when set against 1 second when not,
the set bound being strictly longer. -/
theorem condition_fixed_timeout_ci_only_next_notification (ci : Bool) :
    conditionTimeoutSecs ci = 3 ∧
    nextNotificationTimeoutSecs true = 5 ∧
    nextNotificationTimeoutSecs false = 1 ∧
    nextNotificationTimeoutSecs false < nextNotificationTimeoutSecs true := by
  cases ci <;> decide

/-! ## Event injector lemmas -/

/-- When every token parses, the dispatch loop dispatches each parsed token
in order after the accumulated prefix and completes normally. -/
theorem dispatchTokenLoop_all_ok (parse : String → Option Keystroke) :
    ∀ (ts : List String) (acc : List SimAction),
      (∀ t ∈ ts, (parse t).isSome = true) →
      dispatchTokenLoop parse ts acc =
        .ok (acc ++ ts.filterMap fun t => (parse t).map .keyDispatch) := by
  intro ts
  induction ts with
  | nil => intro acc _; simp [dispatchTokenLoop]
  | cons t ts2 ih =>
    intro acc h
    have ht : (parse t).isSome = true := h t (by simp)
    obtain ⟨k, hk⟩ := Option.isSome_iff_exists.mp ht
    have hstep : dispatchTokenLoop parse (t :: ts2) acc =
        dispatchTokenLoop parse ts2 (acc ++ [.keyDispatch k]) := by
      rw [dispatchTokenLoop, hk]
    rw [hstep]
    rw [ih (acc ++ [SimAction.keyDispatch k]) fun u hu => h u (by simp [hu])]
    simp [List.filterMap_cons, hk]

/-- If some token fails to parse, the dispatch loop panics at the first
failing token, having dispatched exactly the tokens before it. -/
theorem dispatchTokenLoop_first_failure (parse : String → Option Keystroke) :
    ∀ (ts : List String) (acc : List SimAction),
      (∃ t ∈ ts, parse t = none) →
      ∃ pre t post, ts = pre ++ t :: post ∧
        (∀ u ∈ pre, (parse u).isSome = true) ∧ parse t = none ∧
        dispatchTokenLoop parse ts acc =
          .error (acc ++ pre.filterMap fun u => (parse u).map .keyDispatch) := by
  intro ts
  induction ts with
  | nil => intro acc h; simp at h
  | cons t ts2 ih =>
    intro acc h
    cases hp : parse t with
    | none =>
      refine ⟨[], t, ts2, by simp, by simp, hp, ?_⟩
      rw [dispatchTokenLoop, hp]
      simp
    | some k =>
      have h2 : ∃ u ∈ ts2, parse u = none := by
        rcases h with ⟨u, hu, hun⟩
        rcases List.mem_cons.mp hu with rfl | hmem
        · exact absurd hp (by simp [hun])
        · exact ⟨u, hmem, hun⟩
      obtain ⟨pre, u, post, hsplit, hpre, hun, hloop⟩ :=
        ih (acc ++ [.keyDispatch k]) h2
      refine ⟨t :: pre, u, post, by simp [hsplit], ?_, hun, ?_⟩
      · intro v hv
        rcases List.mem_cons.mp hv with rfl | hmem
        · simp [hp]
        · exact hpre v hmem
      · have hstep : dispatchTokenLoop parse (t :: ts2) acc =
            dispatchTokenLoop parse ts2 (acc ++ [.keyDispatch k]) := by
          rw [dispatchTokenLoop, hp]
        rw [hstep, hloop]
        simp [List.filterMap_cons, hp]

/-- A trace produced by the dispatch loop's success path consists only of
keystroke dispatches: it contains no drain. -/
theorem drainCount_filterMap_keyDispatch (parse : String → Option Keystroke)
    (ts : List String) :
    drainCount (ts.filterMap fun t => (parse t).map .keyDispatch) = 0 := by
  rw [drainCount, List.countP_eq_zero]
  intro a ha
  obtain ⟨t, _, hmap⟩ := List.mem_filterMap.mp ha
  obtain ⟨k, _, rfl⟩ := Option.map_eq_some'.mp hmap
  simp

/-- Every action of the dispatch loop's success path is a primitive
dispatch, so the dispatch count equals the number of tokens when all of
them parse. -/
theorem dispatchCount_filterMap_keyDispatch (parse : String → Option Keystroke) :
    ∀ (ts : List String), (∀ t ∈ ts, (parse t).isSome = true) →
    dispatchCount (ts.filterMap fun t => (parse t).map SimAction.keyDispatch) =
      ts.length := by
  have hlen : ∀ (l : List String), (∀ t ∈ l, (parse t).isSome = true) →
      (l.filterMap fun t => (parse t).map SimAction.keyDispatch).length = l.length := by
    intro l
    induction l with
    | nil => intro _; simp
    | cons t l2 ih =>
      intro h
      obtain ⟨k, hk⟩ := Option.isSome_iff_exists.mp (h t (by simp))
      rw [List.filterMap_cons, hk]
      simp [ih fun u hu => h u (by simp [hu])]
  intro ts h
  rw [dispatchCount, ← hlen ts h, List.countP_eq_length]
  intro a ha
  obtain ⟨t, _, hmap⟩ := List.mem_filterMap.mp ha
  obtain ⟨k, _, rfl⟩ := Option.map_eq_some'.mp hmap
  simp

/-! ## Claim theorems for the event injector -/

/-- C3 counterexample: `simulate_click` drains the scheduler twice — once
after each of its two primitive events, because it is built from two
`simulate_event` calls and each of those drains — and its trace is not the
two primitives followed by a single final drain. -/
theorem simulate_click_drains_twice :
    drainCount (simulate_click ⟨0, 0⟩ {}) = 2 ∧
    simulate_click ⟨0, 0⟩ {} ≠
      [SimAction.mouseDownDispatch ⟨⟨0, 0⟩, {}, .left, 1, false⟩,
       SimAction.mouseUpDispatch ⟨⟨0, 0⟩, {}, .left, 1⟩, SimAction.drain] ∧
    (2 : Nat) ≠ 1 := by
  decide

/-- C3 amended: the composed keystroke-sequence and text-input variants
dispatch all their primitives first and drain exactly once, after the full
sequence; the composed click instead drains once per primitive — its trace
is mouse-down, drain, mouse-up, drain, with two drains in total. -/
theorem composed_variants_drain_discipline (parse : String → Option Keystroke)
    (keystrokes input : String) (pos : Position) (mods : Modifiers)
    (hks : ∀ t ∈ rustSplitSpace keystrokes, (parse t).isSome = true)
    (hin : ∀ t ∈ rustSplitEmptyPattern input, (parse t).isSome = true) :
    (∃ ds, simulate_keystrokes parse keystrokes = .ok (ds ++ [SimAction.drain]) ∧
      drainCount ds = 0) ∧
    (∃ ds, simulate_input parse input = .ok (ds ++ [SimAction.drain]) ∧
      drainCount ds = 0) ∧
    simulate_click pos mods =
      [SimAction.mouseDownDispatch ⟨pos, mods, .left, 1, false⟩, SimAction.drain,
       SimAction.mouseUpDispatch ⟨pos, mods, .left, 1⟩, SimAction.drain] ∧
    drainCount (simulate_click pos mods) = 2 := by
  refine ⟨?_, ?_, rfl, ?_⟩
  · refine ⟨(rustSplitSpace keystrokes).filterMap fun t =>
      (parse t).map SimAction.keyDispatch, ?_, ?_⟩
    · rw [simulate_keystrokes, dispatchTokenLoop_all_ok parse _ [] hks]
      simp
    · exact drainCount_filterMap_keyDispatch parse _
  · refine ⟨(rustSplitEmptyPattern input).filterMap fun t =>
      (parse t).map SimAction.keyDispatch, ?_, ?_⟩
    · rw [simulate_input, dispatchTokenLoop_all_ok parse _ [] hin]
      simp
    · exact drainCount_filterMap_keyDispatch parse _
  · simp [drainCount, simulate_click, simulate_event_mouse_down,
      simulate_event_mouse_up]

/-- Witness for the amended C3 at concrete inputs. -/
theorem composed_variants_drain_discipline_witness :
    ((rustSplitSpace "cmd-p escape").all fun t => (sampleParseTotal t).isSome) = true ∧
    ((rustSplitEmptyPattern "hi").all fun t => (sampleParseTotal t).isSome) = true ∧
    ((∃ ds, simulate_keystrokes sampleParseTotal "cmd-p escape" =
        .ok (ds ++ [SimAction.drain]) ∧ drainCount ds = 0) ∧
      (∃ ds, simulate_input sampleParseTotal "hi" =
        .ok (ds ++ [SimAction.drain]) ∧ drainCount ds = 0) ∧
      simulate_click ⟨1, 2⟩ {} =
        [SimAction.mouseDownDispatch ⟨⟨1, 2⟩, {}, .left, 1, false⟩, SimAction.drain,
         SimAction.mouseUpDispatch ⟨⟨1, 2⟩, {}, .left, 1⟩, SimAction.drain] ∧
      drainCount (simulate_click ⟨1, 2⟩ {}) = 2) :=
  ⟨by decide, by decide,
    composed_variants_drain_discipline sampleParseTotal "cmd-p escape" "hi" ⟨1, 2⟩ {}
      (by decide) (by decide)⟩

/-- C4: when every space-separated token of the input parses, the simulated
keystroke sequence dispatches exactly one primitive keystroke per token, in
the same left-to-right order as the tokens, followed by the single drain. -/
theorem simulate_keystrokes_per_token_in_order (parse : String → Option Keystroke)
    (keystrokes : String)
    (h : ∀ t ∈ rustSplitSpace keystrokes, (parse t).isSome = true) :
    simulate_keystrokes parse keystrokes =
      .ok (((rustSplitSpace keystrokes).filterMap fun t =>
        (parse t).map SimAction.keyDispatch) ++ [SimAction.drain]) ∧
    dispatchCount ((rustSplitSpace keystrokes).filterMap fun t =>
        (parse t).map SimAction.keyDispatch) =
      (rustSplitSpace keystrokes).length := by
  constructor
  · rw [simulate_keystrokes, dispatchTokenLoop_all_ok parse _ [] h]
    simp
  · exact dispatchCount_filterMap_keyDispatch parse _ h

/-- Witness for C4: the string of the claim, "cmd-p escape", dispatches
exactly the cmd-p chord and then escape, with one final drain. -/
theorem simulate_keystrokes_per_token_in_order_witness :
    ((rustSplitSpace "cmd-p escape").all fun t =>
      (sampleKeystrokeParse t).isSome) = true ∧
    (simulate_keystrokes sampleKeystrokeParse "cmd-p escape" =
      .ok (((rustSplitSpace "cmd-p escape").filterMap fun t =>
        (sampleKeystrokeParse t).map SimAction.keyDispatch) ++ [SimAction.drain]) ∧
      dispatchCount ((rustSplitSpace "cmd-p escape").filterMap fun t =>
        (sampleKeystrokeParse t).map SimAction.keyDispatch) =
        (rustSplitSpace "cmd-p escape").length) ∧
    simulate_keystrokes sampleKeystrokeParse "cmd-p escape" =
      .ok [SimAction.keyDispatch ⟨"cmd-p"⟩, SimAction.keyDispatch ⟨"escape"⟩,
           SimAction.drain] :=
  ⟨by decide,
    simulate_keystrokes_per_token_in_order sampleKeystrokeParse "cmd-p escape"
      (by decide),
    by decide⟩

/-- C5 counterexample: `simulate_input` splits with the empty-string pattern,
so the one-character string "a" is fed to the parser as three pieces: an
empty token, "a", and another empty token. With a parser that accepts every
piece the call performs three primitive dispatches, not one; with a parser
that rejects the empty token the call panics before dispatching anything.
Either way it does not dispatch exactly one primitive keystroke per
character. -/
theorem simulate_input_dispatches_more_than_chars :
    simulate_input sampleParseTotal "a" =
      .ok [SimAction.keyDispatch ⟨""⟩, SimAction.keyDispatch ⟨"a"⟩,
           SimAction.keyDispatch ⟨""⟩, SimAction.drain] ∧
    dispatchCount [SimAction.keyDispatch ⟨""⟩, SimAction.keyDispatch ⟨"a"⟩,
           SimAction.keyDispatch ⟨""⟩, SimAction.drain] = 3 ∧
    "a".length = 1 ∧ (3 : Nat) ≠ 1 ∧
    simulate_input sampleKeystrokeParse "a" = .error [] := by
  decide

/-- C5 amended: `simulate_input` decomposes the string with Rust's
empty-string split, producing an empty piece, then the characters in
left-to-right order, then an empty piece; when the parser accepts all the
pieces, it dispatches them in that order — one keystroke per character plus
the two empty-token keystrokes — followed by the single drain, for a total
of length-plus-two primitive dispatches. -/
theorem simulate_input_per_char_plus_empty_boundaries
    (parse : String → Option Keystroke) (input : String)
    (h : ∀ t ∈ rustSplitEmptyPattern input, (parse t).isSome = true) :
    simulate_input parse input =
      .ok (((rustSplitEmptyPattern input).filterMap fun t =>
        (parse t).map SimAction.keyDispatch) ++ [SimAction.drain]) ∧
    rustSplitEmptyPattern input = "" :: (input.toList.map String.singleton ++ [""]) ∧
    dispatchCount ((rustSplitEmptyPattern input).filterMap fun t =>
        (parse t).map SimAction.keyDispatch) = input.length + 2 := by
  refine ⟨?_, rfl, ?_⟩
  · rw [simulate_input, dispatchTokenLoop_all_ok parse _ [] h]
    simp
  · rw [dispatchCount_filterMap_keyDispatch parse _ h]
    have hlen : input.toList.length = input.length := rfl
    simp [rustSplitEmptyPattern, hlen]

/-- Witness for the amended C5 on the two-character string "ab". -/
theorem simulate_input_per_char_plus_empty_boundaries_witness :
    ((rustSplitEmptyPattern "ab").all fun t => (sampleParseTotal t).isSome) = true ∧
    (simulate_input sampleParseTotal "ab" =
      .ok (((rustSplitEmptyPattern "ab").filterMap fun t =>
        (sampleParseTotal t).map SimAction.keyDispatch) ++ [SimAction.drain]) ∧
      rustSplitEmptyPattern "ab" = "" :: ("ab".toList.map String.singleton ++ [""]) ∧
      dispatchCount ((rustSplitEmptyPattern "ab").filterMap fun t =>
        (sampleParseTotal t).map SimAction.keyDispatch) = "ab".length + 2) :=
  ⟨by decide,
    simulate_input_per_char_plus_empty_boundaries sampleParseTotal "ab" (by decide)⟩

/-- C6: when some space-separated token fails to parse, `simulate_keystrokes`
panics (models the `Result::unwrap` of the first failing parse) exactly at
the first malformed token: the tokens before it are dispatched in order, the
malformed one and everything after it is not, nothing is silently skipped,
and the final drain is never reached. -/
theorem simulate_keystrokes_panics_at_first_malformed
    (parse : String → Option Keystroke) (keystrokes : String)
    (h : ∃ t ∈ rustSplitSpace keystrokes, parse t = none) :
    ∃ pre t post, rustSplitSpace keystrokes = pre ++ t :: post ∧
      (∀ u ∈ pre, (parse u).isSome = true) ∧ parse t = none ∧
      simulate_keystrokes parse keystrokes =
        .error (pre.filterMap fun u => (parse u).map SimAction.keyDispatch) ∧
      drainCount (pre.filterMap fun u => (parse u).map SimAction.keyDispatch) = 0 := by
  obtain ⟨pre, t, post, hsplit, hpre, ht, hloop⟩ :=
    dispatchTokenLoop_first_failure parse (rustSplitSpace keystrokes) [] h
  refine ⟨pre, t, post, hsplit, hpre, ht, ?_, drainCount_filterMap_keyDispatch parse _⟩
  rw [simulate_keystrokes, hloop]
  simp

/-- Witness for C6: a double space makes the middle token empty and the
sample parser rejects it, so the call panics after dispatching only the
cmd-p chord and performing no drain. -/
theorem simulate_keystrokes_panics_at_first_malformed_witness :
    (∃ t ∈ rustSplitSpace "cmd-p  escape", sampleKeystrokeParse t = none) ∧
    (∃ pre t post, rustSplitSpace "cmd-p  escape" = pre ++ t :: post ∧
      (∀ u ∈ pre, (sampleKeystrokeParse u).isSome = true) ∧
      sampleKeystrokeParse t = none ∧
      simulate_keystrokes sampleKeystrokeParse "cmd-p  escape" =
        .error (pre.filterMap fun u =>
          (sampleKeystrokeParse u).map SimAction.keyDispatch) ∧
      drainCount (pre.filterMap fun u =>
        (sampleKeystrokeParse u).map SimAction.keyDispatch) = 0) ∧
    simulate_keystrokes sampleKeystrokeParse "cmd-p  escape" =
      .error [SimAction.keyDispatch ⟨"cmd-p"⟩] :=
  ⟨by decide,
    simulate_keystrokes_panics_at_first_malformed sampleKeystrokeParse
      "cmd-p  escape" (by decide),
    by decide⟩

/-! ## Notification bridge lemmas -/

/-- Once the channel is closed, neither further notifications nor a second
release change it: late sends are dropped and closing is idempotent. -/
theorem notificationsFold_closed (events : List EntityEvent) :
    ∀ (b : List Unit),
      events.foldl notificationsStep { buffer := b, senderClosed := true } =
        { buffer := b, senderClosed := true } := by
  induction events with
  | nil => intro b; rfl
  | cons e rest ih =>
    intro b
    cases e with
    | notified =>
      rw [List.foldl_cons]
      have : notificationsStep { buffer := b, senderClosed := true } .notified =
          { buffer := b, senderClosed := true } := rfl
      rw [this, ih b]
    | released =>
      rw [List.foldl_cons]
      have : notificationsStep { buffer := b, senderClosed := true } .released =
          { buffer := b, senderClosed := true } := rfl
      rw [this, ih b]

/-- Before the release, every change notification appends exactly one unit
item to the open channel. -/
theorem notificationsFold_open (pre : List EntityEvent) :
    ∀ (b : List Unit), EntityEvent.released ∉ pre →
      pre.foldl notificationsStep { buffer := b, senderClosed := false } =
        { buffer := b ++ List.replicate (notifiedCount pre) (), senderClosed := false } := by
  induction pre with
  | nil => intro b _; simp [notifiedCount]
  | cons e rest ih =>
    intro b hmem
    cases e with
    | released => exact absurd (by simp) hmem
    | notified =>
      rw [List.foldl_cons]
      have hstep : notificationsStep { buffer := b, senderClosed := false } .notified =
          { buffer := b ++ [()], senderClosed := false } := rfl
      rw [hstep, ih (b ++ [()]) fun hc => hmem (by simp [hc])]
      have hcnt : notifiedCount (EntityEvent.notified :: rest) = notifiedCount rest + 1 := by
        simp [notifiedCount, List.countP_cons]
      rw [hcnt]
      have : List.replicate (notifiedCount rest + 1) () =
          () :: List.replicate (notifiedCount rest) () := by
        rw [Nat.add_comm, List.replicate_add]
        rfl
      rw [this]
      simp

/-- Draining a closed channel holding `c` buffered unit items: the first `c`
polls yield the items, every later poll reports closure, and no poll is ever
pending or an error. -/
theorem observeSeq_closed_buffer :
    ∀ (n c : Nat),
      observeSeq
        ({ buffer := List.replicate c (), senderClosed := true } : UnboundedChannel Unit) n =
        List.replicate (min n c) (StreamPoll.item ()) ++
          List.replicate (n - c) StreamPoll.closed := by
  intro n
  induction n with
  | zero => intro c; simp [observeSeq]
  | succ m ih =>
    intro c
    cases c with
    | zero =>
      have hstep : observeSeq
          ({ buffer := List.replicate 0 (), senderClosed := true } :
            UnboundedChannel Unit) (m + 1) =
          StreamPoll.closed ::
            observeSeq { buffer := List.replicate 0 (), senderClosed := true } m := rfl
      rw [hstep, ih 0]
      simp [List.replicate_succ]
    | succ c2 =>
      have hstep : observeSeq
          ({ buffer := List.replicate (c2 + 1) (), senderClosed := true } :
            UnboundedChannel Unit) (m + 1) =
          StreamPoll.item () ::
            observeSeq { buffer := List.replicate c2 (), senderClosed := true } m := rfl
      rw [hstep, ih c2]
      have hmin : min (m + 1) (c2 + 1) = min m c2 + 1 := by omega
      have hsub : m + 1 - (c2 + 1) = m - c2 := by omega
      rw [hmin, hsub]
      have : List.replicate (min m c2 + 1) (StreamPoll.item ()) =
          StreamPoll.item () :: List.replicate (min m c2) (StreamPoll.item ()) := by
        rw [Nat.add_comm, List.replicate_add]
        rfl
      rw [this]
      simp

/-! ## Claim theorems for the notification and event bridges -/

/-- C8: the notifications stream carries exactly one unit item per change
notification while the entity lives; releasing the entity closes the channel,
after which later notifications add nothing; and a consumer draining the
stream observes the buffered items one each, then closure — at one
well-defined point, repeated idempotently on every further poll, never a
stall (pending) and never an error. -/
theorem notifications_one_item_per_change_then_closes
    (pre post : List EntityEvent) (n : Nat)
    (hpre : EntityEvent.released ∉ pre) :
    (notificationsChannel pre).buffer = List.replicate (notifiedCount pre) () ∧
    (notificationsChannel pre).senderClosed = false ∧
    notificationsChannel (pre ++ .released :: post) =
      { buffer := List.replicate (notifiedCount pre) (), senderClosed := true } ∧
    observeSeq (notificationsChannel (pre ++ .released :: post)) n =
      List.replicate (min n (notifiedCount pre)) (StreamPoll.item ()) ++
        List.replicate (n - notifiedCount pre) StreamPoll.closed := by
  have hopen : notificationsChannel pre =
      { buffer := List.replicate (notifiedCount pre) (), senderClosed := false } := by
    rw [notificationsChannel]
    have := notificationsFold_open pre [] hpre
    simpa [emptyChannel] using this
  have hfull : notificationsChannel (pre ++ .released :: post) =
      { buffer := List.replicate (notifiedCount pre) (), senderClosed := true } := by
    rw [notificationsChannel, List.foldl_append, List.foldl_cons]
    rw [notificationsChannel] at hopen
    rw [hopen]
    have hstep : notificationsStep
        { buffer := List.replicate (notifiedCount pre) (), senderClosed := false }
        .released =
        { buffer := List.replicate (notifiedCount pre) (), senderClosed := true } := rfl
    rw [hstep, notificationsFold_closed post]
  refine ⟨by rw [hopen], by rw [hopen], hfull, ?_⟩
  rw [hfull, observeSeq_closed_buffer]

/-- Witness for C8: two notifications, a release, then a late notification;
four polls observe item, item, closure, closure. -/
theorem notifications_one_item_per_change_then_closes_witness :
    (EntityEvent.released ∉ [EntityEvent.notified, EntityEvent.notified]) ∧
    ((notificationsChannel [EntityEvent.notified, EntityEvent.notified]).buffer =
        List.replicate (notifiedCount [EntityEvent.notified, EntityEvent.notified]) () ∧
      (notificationsChannel [EntityEvent.notified, EntityEvent.notified]).senderClosed =
        false ∧
      notificationsChannel
          ([EntityEvent.notified, EntityEvent.notified] ++
            .released :: [EntityEvent.notified]) =
        { buffer :=
            List.replicate (notifiedCount [EntityEvent.notified, EntityEvent.notified]) ()
          senderClosed := true } ∧
      observeSeq
          (notificationsChannel
            ([EntityEvent.notified, EntityEvent.notified] ++
              .released :: [EntityEvent.notified])) 4 =
        List.replicate
            (min 4 (notifiedCount [EntityEvent.notified, EntityEvent.notified]))
            (StreamPoll.item ()) ++
          List.replicate (4 - notifiedCount [EntityEvent.notified, EntityEvent.notified])
            StreamPoll.closed) :=
  ⟨by decide,
    notifications_one_item_per_change_then_closes
      [EntityEvent.notified, EntityEvent.notified] [EntityEvent.notified] 4 (by decide)⟩

/-- Bridge invariant: starting from any state with an open channel, the
values the consumer has received followed by the values still buffered equal
the starting backlog plus everything emitted since, and the channel stays
open. -/
theorem bridgeFold_invariant {α : Type} (ops : List (BridgeOp α)) :
    ∀ (s : BridgeState α), s.chan.senderClosed = false →
      (ops.foldl bridgeStep s).received ++ (ops.foldl bridgeStep s).chan.buffer =
        s.received ++ (s.chan.buffer ++ emitsOf ops) ∧
      (ops.foldl bridgeStep s).chan.senderClosed = false := by
  induction ops with
  | nil => intro s hs; simp [emitsOf, hs]
  | cons op rest ih =>
    intro s hs
    obtain ⟨⟨buf, sc⟩, rcv⟩ := s
    simp only at hs
    subst hs
    cases op with
    | emit e =>
      rw [List.foldl_cons]
      have hstep : bridgeStep ⟨⟨buf, false⟩, rcv⟩ (.emit e) =
          ⟨⟨buf ++ [e], false⟩, rcv⟩ := by
        simp [bridgeStep, unboundedSend]
      rw [hstep]
      obtain ⟨h1, h2⟩ := ih ⟨⟨buf ++ [e], false⟩, rcv⟩ rfl
      refine ⟨?_, h2⟩
      rw [h1]
      simp [emitsOf]
    | poll =>
      rw [List.foldl_cons]
      cases buf with
      | nil =>
        have hstep : bridgeStep ⟨⟨[], false⟩, rcv⟩ .poll = ⟨⟨[], false⟩, rcv⟩ := rfl
        rw [hstep]
        obtain ⟨h1, h2⟩ := ih ⟨⟨[], false⟩, rcv⟩ rfl
        refine ⟨?_, h2⟩
        rw [h1]
        simp [emitsOf]
      | cons a buf2 =>
        have hstep : bridgeStep ⟨⟨a :: buf2, false⟩, rcv⟩ .poll =
            ⟨⟨buf2, false⟩, rcv ++ [a]⟩ := rfl
        rw [hstep]
        obtain ⟨h1, h2⟩ := ih ⟨⟨buf2, false⟩, rcv ++ [a]⟩ rfl
        refine ⟨?_, h2⟩
        rw [h1]
        simp [emitsOf]

/-- C9: over any interleaving of emissions and consumer polls, the events
bridge loses nothing and reorders nothing — what the consumer has received
followed by what is still buffered is exactly the emission sequence; the
channel is never closed by slow consumption, and a send into it always
succeeds by appending, regardless of how rarely the consumer polled. -/
theorem events_bridge_unbounded_in_order {α : Type} (ops : List (BridgeOp α)) :
    (bridgeRun ops).received ++ (bridgeRun ops).chan.buffer = emitsOf ops ∧
    (bridgeRun ops).chan.senderClosed = false ∧
    sendSucceeds (bridgeRun ops).chan = true ∧
    ∀ e, unboundedSend (bridgeRun ops).chan e =
      { buffer := (bridgeRun ops).chan.buffer ++ [e], senderClosed := false } := by
  obtain ⟨h1, h2⟩ := bridgeFold_invariant ops
    { chan := emptyChannel, received := [] } rfl
  rw [bridgeRun]
  refine ⟨by simpa [emptyChannel] using h1, h2, ?_, ?_⟩
  · rw [sendSucceeds, h2]
    rfl
  · intro e
    rw [unboundedSend, h2]
    simp [h2]

/-! ## One-shot next event lemmas -/

/-- After the one-shot sender has fired, later occurrences change nothing:
the callback finds `tx` already taken and dropping the subscription does not
unsend. -/
theorem nextEventFold_after_send {α : Type} (rest : List (SubEvent α)) :
    ∀ (d : Bool) (v : α),
      ((rest.foldl nextEventStep
        { txPresent := false, sent := some v, senderDropped := d })).sent = some v := by
  induction rest with
  | nil => intro d v; rfl
  | cons ev rest2 ih =>
    intro d v
    cases ev with
    | emit w =>
      rw [List.foldl_cons]
      have hstep : nextEventStep
          ({ txPresent := false, sent := some v, senderDropped := d } : OneshotState α)
          (.emit w) =
          { txPresent := false, sent := some v, senderDropped := d } := by
        rw [nextEventStep]
        cases d <;> simp
      rw [hstep]
      exact ih d v
    | dropSub =>
      rw [List.foldl_cons]
      have hstep : nextEventStep
          ({ txPresent := false, sent := some v, senderDropped := d } : OneshotState α)
          .dropSub =
          { txPresent := false, sent := some v, senderDropped := true } := rfl
      rw [hstep]
      exact ih true v

/-- After the subscription is dropped with the sender unsent, nothing can
fire the callback any more: the state is a fixed point. -/
theorem nextEventFold_after_drop {α : Type} (rest : List (SubEvent α)) :
    rest.foldl nextEventStep
        ({ txPresent := true, sent := none, senderDropped := true } : OneshotState α) =
      { txPresent := true, sent := none, senderDropped := true } := by
  induction rest with
  | nil => rfl
  | cons ev rest2 ih =>
    rw [List.foldl_cons]
    cases ev with
    | emit w =>
      have hstep : nextEventStep
          ({ txPresent := true, sent := none, senderDropped := true } : OneshotState α)
          (.emit w) =
          { txPresent := true, sent := none, senderDropped := true } := rfl
      rw [hstep, ih]
    | dropSub =>
      have hstep : nextEventStep
          ({ txPresent := true, sent := none, senderDropped := true } : OneshotState α)
          .dropSub =
          { txPresent := true, sent := none, senderDropped := true } := rfl
      rw [hstep, ih]

/-- C10: `Model::next_event` resolves with exactly the first event emitted
after the call — every later occurrence is ignored because the one-shot
sender is consumed by `take()` on first use; if the subscription is dropped
before any event, the future panics with the "no event emitted" expectation
whatever happens afterwards; and with no occurrence at all it stays
pending. -/
theorem next_event_first_emission_decides {α : Type} (e : α)
    (rest : List (SubEvent α)) :
    nextEventOutcome (SubEvent.emit e :: rest) = .resolved e ∧
    nextEventOutcome (SubEvent.dropSub :: rest) = .panicNoEvent ∧
    nextEventOutcome ([] : List (SubEvent α)) = .pending := by
  refine ⟨?_, ?_, rfl⟩
  · rw [nextEventOutcome, List.foldl_cons]
    have hstep : nextEventStep
        ({ txPresent := true, sent := none, senderDropped := false } : OneshotState α)
        (.emit e) =
        { txPresent := false, sent := some e, senderDropped := false } := rfl
    rw [hstep]
    simp only [nextEventFold_after_send rest false e]
  · rw [nextEventOutcome, List.foldl_cons]
    have hstep : nextEventStep
        ({ txPresent := true, sent := none, senderDropped := false } : OneshotState α)
        .dropSub =
        { txPresent := true, sent := none, senderDropped := true } := rfl
    rw [hstep]
    simp only [nextEventFold_after_drop rest]
    simp [nextEventOutcome]

end GpuiTest
